import Mathlib

/-!
# hw-shell: path resolution, redirection and launch of external programs

A shallow embedding of `src/hw-shell/shell.c`.

Conventions of the embedding:
* a C string is a `String`; a `char *` that may be `NULL` is an `Option String`;
* the answers of the operating system that the code cannot influence (environment,
  file existence, whether an open succeeds, ...) are the fields of `Sys`;
* the mutable state (shell globals, process state, terminal state, log of calls) is `World`;
* descriptors 0 and 1 are tracked (what each is open on), and so is the descriptor each of the
  streams `stdin` and `stdout` is attached to; a newly opened file takes the lowest free
  descriptor, so a stream opened by `fopen` and never closed can land on descriptor 0 or 1;
* memory allocation (`malloc`, `strdup`) is assumed to succeed.
-/

namespace HwShell

/-! ## Operating-system answers -/

/-- Answers of the operating system during one command. -/
structure Sys where
  /-- Result of `getenv("PATH")`; `none` is `NULL`. -/
  PATH : Option String
  /-- Whether `access(p, F_OK) != -1`. -/
  access : String → Bool
  /-- Whether `fopen(path, mode)` returns a stream. -/
  fopen_ok : String → String → Bool
  /-- Whether `freopen(path, mode, stream)` returns a stream. -/
  freopen_ok : String → String → Bool
  /-- Whether a descriptor opened on this path is the controlling terminal. -/
  tty_path : String → Bool
  /-- Whether the descriptor 0 the shell was started with is the controlling terminal. -/
  stdin_tty : Bool
  /-- Whether the descriptor 1 the shell was started with is the controlling terminal. -/
  stdout_tty : Bool
  /-- The directory `chdir(path)` leads to from a working directory; `none` when it fails. -/
  chdir : String → String → Option String
  /-- Whether `execv(path, argv)` replaces the process image. -/
  execv_ok : String → Bool
  /-- Terminal modes read by `tcgetattr`. -/
  tmodes : Nat

/-! ## `strtok` and `get_full_path` (shell.c 102-163) -/

/-- One call of `strtok(_, delim)` on the remaining buffer: leading delimiters are skipped;
at the end of the buffer the result is `NULL` (`none`); otherwise the token runs to the next
delimiter, and the saved position is just after that delimiter. -/
def strtok (buf : List Char) (delim : Char) : Option (List Char × List Char) :=
  match buf.dropWhile (fun c => c == delim) with
  | [] => none
  | c :: cs =>
    some ((c :: cs).takeWhile (fun x => x != delim),
          ((c :: cs).dropWhile (fun x => x != delim)).drop 1)

/-- The `while (path != NULL)` loop of `get_full_path` (lines 134-159): `buf` is the part of
the copy of `PATH` that `strtok` has not consumed yet. Every iteration consumes at least one
character, so `buf.length + 1` iterations always suffice. -/
def path_loop (access : String → Bool) (path_input : String) :
    Nat → List Char → Option String
  | 0, _ => none
  | fuel + 1, buf =>
    match strtok buf ':' with
    | none => none
    | some (path, rest) =>
      let full_path := String.mk path ++ "/" ++ path_input
      if access full_path then some full_path
      else path_loop access path_input fuel rest

/-- Embedding of `get_full_path` (lines 102-163). -/
def get_full_path (sys : Sys) (path_input : Option String) : Option String :=
  match path_input with
  | none => none
  | some name =>
    if name.data.head? = some '/' then
      if sys.access name then some name else none
    else
      match sys.PATH with
      | none => none
      | some env_path =>
        path_loop sys.access name (env_path.data.length + 1) env_path.data

/-! ## Reference definitions for path resolution -/

/-- Splitting a character list on `':'`: the fields between the separators, empty ones kept. -/
def split_colon : List Char → List (List Char)
  | [] => [[]]
  | c :: cs =>
    if c = ':' then [] :: split_colon cs
    else
      match split_colon cs with
      | [] => [[c]]
      | f :: fs => (c :: f) :: fs

/-- The `':'`-separated entries of a `PATH` value, empty entries included. -/
def path_fields (env_path : String) : List String :=
  (split_colon env_path.data).map String.mk

/-- The non-empty `':'`-separated entries of a `PATH` value. -/
def path_entries (env_path : String) : List String :=
  ((split_colon env_path.data).filter (fun f => !f.isEmpty)).map String.mk

/-- The candidate built for a directory entry: `dir + "/" + name`. -/
def candidate (name : String) (dir : String) : String :=
  dir ++ "/" ++ name

/-- Resolution of a relative name as the specification words it: split `PATH` on `':'`, build
`dir + "/" + name` for each entry in order, return the first candidate that exists. -/
def resolve_spec (sys : Sys) (name : String) : Option String :=
  match sys.PATH with
  | none => none
  | some env_path => ((path_fields env_path).map (candidate name)).find? sys.access

/-- Resolution of a relative name over the non-empty entries of `PATH` only. -/
def resolve_nonempty (sys : Sys) (name : String) : Option String :=
  match sys.PATH with
  | none => none
  | some env_path => ((path_entries env_path).map (candidate name)).find? sys.access

/-- A concrete `Sys` with the given `PATH` and existing files; everything else succeeds. -/
def sys_of (path : Option String) (files : List String) : Sys :=
  { PATH := path
    access := fun p => files.contains p
    fopen_ok := fun _ _ => true
    freopen_ok := fun _ _ => true
    tty_path := fun p => p == "/dev/tty"
    stdin_tty := false
    stdout_tty := false
    chdir := fun _ p => some p
    execv_ok := fun _ => true
    tmodes := 0 }

/-- The non-empty fields of a buffer. -/
def nonempty_fields (buf : List Char) : List (List Char) :=
  (split_colon buf).filter (fun f => !f.isEmpty)


/-! ## Process, stream and terminal state -/

/-- What a descriptor is open on. -/
inductive Binding
  /-- The file the shell was started with on this descriptor. -/
  | inherited
  /-- The file of this path, opened by `fopen` or `freopen`. -/
  | file (path : String)
  /-- Not open: the descriptor is free. -/
  | closed
deriving DecidableEq, Repr

/-- Where a stream (`FILE *`) is attached. -/
inductive Attach
  /-- On descriptor `fd`, one of the tracked descriptors 0 and 1. -/
  | desc (fd : Nat)
  /-- On a descriptor above 1, which is open on the file of this path. -/
  | high (path : String)
  /-- The stream is closed: a failed `freopen` leaves it so. -/
  | closed
deriving DecidableEq, Repr

/-- Disposition of a signal. -/
inductive Disp
  | SIG_DFL
  | SIG_IGN
deriving DecidableEq, Repr

/-- Calls and messages recorded in the log of a `World`. -/
inductive Event
  | printf (msg : String)
  | perror (msg : String)
  | fopen (path mode : String)
  | freopen (path mode : String) (fd : Nat)
  | chdir (path : Option String)
  | fork
  | tcsetpgrp (fd pgid : Nat)
  | waitpid (pid status : Nat)
  | execv (path : String) (argv : List (Option String))
  | kill_SIGTTIN (pgid : Nat)
deriving DecidableEq, Repr

/-- The mutable state: the globals of shell.c (lines 22-31), the state of the process, the
state of the controlling terminal and of the session, and the log of calls. -/
structure World where
  shell_is_interactive : Bool
  shell_terminal : Nat
  shell_tmodes : Nat
  shell_pgid : Nat
  /-- Result of `getpid()`. -/
  pid : Nat
  /-- Result of `getpgrp()`. -/
  pgrp : Nat
  /-- What descriptor 0 is open on. -/
  fd0 : Binding
  /-- What descriptor 1 is open on. -/
  fd1 : Binding
  /-- Where the stream `stdin` is attached. -/
  stdin : Attach
  /-- Where the stream `stdout` is attached. -/
  stdout : Attach
  sigint : Disp
  sigtstp : Disp
  sigttou : Disp
  /-- Current working directory. -/
  cwd : String
  /-- Foreground process group of the controlling terminal. -/
  fg : Nat
  /-- Process-group ids that exist in the session of the shell. -/
  groups : List Nat
  /-- Calls made and messages printed so far, oldest first. -/
  trace : List Event
deriving DecidableEq, Repr

/-- Append an event to the log. -/
def World.log (w : World) (e : Event) : World :=
  { w with trace := w.trace ++ [e] }

/-- Events logged between an earlier state `w` and a later state `w1`. -/
def new_events (w w1 : World) : List Event :=
  w1.trace.drop w.trace.length

/-- The descriptor of standard input, `STDIN_FILENO`. -/
def STDIN_FILENO : Nat := 0

/-- The descriptor of standard output, `STDOUT_FILENO`. -/
def STDOUT_FILENO : Nat := 1

/-- Whether descriptor `fd` is open on the controlling terminal, given what descriptors 0 and
1 are open on (a terminal the shell has open is taken to be its controlling terminal). Only
descriptors 0 and 1 are tracked. -/
def fd_is_terminal (sys : Sys) (fd0 fd1 : Binding) (fd : Nat) : Bool :=
  if fd = STDIN_FILENO then
    match fd0 with
    | .inherited => sys.stdin_tty
    | .file p => sys.tty_path p
    | .closed => false
  else if fd = STDOUT_FILENO then
    match fd1 with
    | .inherited => sys.stdout_tty
    | .file p => sys.tty_path p
    | .closed => false
  else false

/-- Whether descriptor `fd` of the shell is open on its controlling terminal: the answer of
`isatty(fd)`. -/
def is_terminal (sys : Sys) (w : World) (fd : Nat) : Bool :=
  fd_is_terminal sys w.fd0 w.fd1 fd

/-- POSIX `tcsetpgrp(fd, pgid)`: when `fd` is the controlling terminal and `pgid` is a process
group of the session, the foreground group becomes `pgid`; otherwise the call fails (`ENOTTY`,
`EBADF`, `EPERM`, `EINVAL`) and changes nothing. The code never looks at the return value. The
caller is not stopped by `SIGTTOU` (`init_shell` ignores that signal). -/
def tcsetpgrp (sys : Sys) (w : World) (fd pgid : Nat) : World :=
  if is_terminal sys w fd && w.groups.contains pgid then
    { w.log (.tcsetpgrp fd pgid) with fg := pgid }
  else w.log (.tcsetpgrp fd pgid)

/-- Put descriptor `fd` (0 or 1) on `b`; other descriptors are not tracked. -/
def set_fd (w : World) (fd : Nat) (b : Binding) : World :=
  if fd = STDIN_FILENO then { w with fd0 := b }
  else if fd = STDOUT_FILENO then { w with fd1 := b }
  else w

/-- A successful open of `path` for a new stream: the file takes the lowest free descriptor.
The result is the state and where the new stream is attached. -/
def open_lowest (w : World) (path : String) : World × Attach :=
  if w.fd0 = .closed then ({ w with fd0 := .file path }, .desc STDIN_FILENO)
  else if w.fd1 = .closed then ({ w with fd1 := .file path }, .desc STDOUT_FILENO)
  else (w, .high path)

/-- The call `fclose(stream)` for a stream attached at `a`: its descriptor is closed. -/
def fclose (w : World) (a : Attach) : World :=
  match a with
  | .desc fd => set_fd w fd .closed
  | _ => w

/-- The call `freopen(path, mode, stream)` for a stream attached at `a`, as glibc does it: on
success an open stream keeps its descriptor number, now open on `path`, and a closed stream
takes the lowest free descriptor; on failure the descriptor of the stream is closed and the
stream is left closed. The result is the state and where the stream is attached afterwards. -/
def freopen (sys : Sys) (w : World) (path mode : String) (a : Attach) : World × Attach :=
  if sys.freopen_ok path mode then
    match a with
    | .desc fd => (set_fd w fd (.file path), .desc fd)
    | .high _ => (w, .high path)
    | .closed => open_lowest w path
  else (fclose w a, .closed)

/-! ## Tokens -/

/-- Modelled from the spec: the token sequence of the lexer (tokenizer.h, which declares
`struct tokens`, is not among the sources): an ordered list of strings, index 0 the command. -/
abbrev Tokens := List String

/-- Modelled from the spec: `tokens_get_length` of the absent tokenizer, the number of tokens. -/
def tokens_get_length (tokens : Tokens) : Nat := tokens.length

/-- Modelled from the spec: `tokens_get_token` of the absent tokenizer, indexed access; `none`
(`NULL`) outside the sequence. -/
def tokens_get_token (tokens : Tokens) (n : Nat) : Option String := tokens[n]?

/-! ## Builtin `cd` (shell.c 84-99) -/

/-- Embedding of `cmd_cd` (lines 84-99): the return value and the state afterwards. -/
def cmd_cd (sys : Sys) (w : World) (tokens : Tokens) : Int × World :=
  if tokens_get_length tokens ≠ 2 then
    (1, w.log (.printf "需要一个参数（目标路径）！\n"))
  else
    let path := tokens_get_token tokens 1
    let w1 := w.log (.chdir path)
    match path.bind (sys.chdir w.cwd) with
    | none => (1, w1.log (.perror "转换路径出现错误! "))
    | some dir => (0, { w1 with cwd := dir })

/-! ## Redirection (shell.c 165-215) -/

/-- Embedding of `redirect_output` (lines 165-185). -/
def redirect_output (sys : Sys) (w : World) (file_path : Option String) : Int × World :=
  match file_path with
  | none => (1, w.log (.perror "loss the file params！"))
  | some p =>
    let w1 := w.log (.fopen p "w")
    if !sys.fopen_ok p "w" then (1, w1.log (.perror "open file error！"))
    else
      let file := open_lowest w1 p
      let r := freopen sys (file.1.log (.freopen p "w" STDOUT_FILENO)) p "w" file.1.stdout
      let w2 := { r.1 with stdout := r.2 }
      if !sys.freopen_ok p "w" then
        (1, fclose (w2.log (.perror "redirect file error！")) file.2)
      else (0, w2)

/-- Embedding of `redirect_input` (lines 187-208). -/
def redirect_input (sys : Sys) (w : World) (file_path : Option String) : Int × World :=
  match file_path with
  | none => (1, w.log (.perror "缺少文件路径参数！"))
  | some p =>
    let w1 := w.log (.fopen p "r")
    if !sys.fopen_ok p "r" then (1, w1.log (.perror "打开文件出错!"))
    else
      let file := open_lowest w1 p
      let r := freopen sys (file.1.log (.freopen p "r" STDIN_FILENO)) p "r" file.1.stdin
      let w2 := { r.1 with stdin := r.2 }
      if !sys.freopen_ok p "r" then
        (1, fclose (w2.log (.perror "重定向标准输入到文件失败！")) file.2)
      else (0, w2)

/-- Embedding of `reset_stdio` (lines 210-215). -/
def reset_stdio (sys : Sys) (w : World) : World :=
  let r1 := freopen sys (w.log (.freopen "/dev/tty" "w" STDOUT_FILENO)) "/dev/tty" "w" w.stdout
  let w1 := { r1.1 with stdout := r1.2 }
  let r2 := freopen sys (w1.log (.freopen "/dev/tty" "r" STDIN_FILENO)) "/dev/tty" "r" w1.stdin
  { r2.1 with stdin := r2.2 }

/-! ## Launching a program (shell.c 217-299) -/

/-- What `fork()` returns to the process that runs the code after it. -/
inductive ForkRet
  /-- `fork` returned -1. -/
  | fail
  /-- `fork` returned 0: this is the child, whose process id is `self`. -/
  | child (self : Nat)
  /-- `fork` returned `pid > 0`: this is the shell. `ready` tells whether the child's
  `setpgid(0, 0)` has taken effect when the shell hands the terminal over; `status` is what
  `waitpid` stores. -/
  | parent (pid : Nat) (ready : Bool) (status : Nat)
deriving DecidableEq, Repr

/-- How the code of `cmd_run_prog` ends in the process that runs it. -/
inductive Outcome
  /-- The function returns `code` to its caller. -/
  | ret (code : Int)
  /-- The call `execv(path, argv)` replaced the process image. -/
  | exec (path : String) (argv : List (Option String))
  /-- The process terminated through `exit(code)`. -/
  | exit (code : Int)
deriving DecidableEq, Repr

/-- The array built at lines 268-280: `argv[i] = tokens[i]` for `i < new_argc`, then `NULL`. -/
def build_argv (tokens : Tokens) (new_argc : Nat) : List (Option String) :=
  (List.range new_argc).map (fun i => tokens[i]?) ++ [none]

/-- The child branch (lines 259-285). -/
def child_branch (sys : Sys) (w : World) (self : Nat) (tokens : Tokens)
    (program_path : String) (is_redirected : Nat) : Outcome × World :=
  let w1 := { w with pid := self }
  let w2 := { w1 with pgrp := self, groups := self :: w1.groups }
  let w3 := { w2 with sigint := .SIG_DFL, sigtstp := .SIG_DFL, sigttou := .SIG_DFL }
  let new_argc := if is_redirected = 1 then tokens.length - 2 else tokens.length
  let argv := build_argv tokens new_argc
  let w4 := w3.log (.execv program_path argv)
  if sys.execv_ok program_path then (.exec program_path argv, w4)
  else (.exit 1, w4.log (.perror "执行子进程错误!"))

/-- The parent branch (lines 286-298). -/
def parent_branch (sys : Sys) (w : World) (pid : Nat) (ready : Bool) (status : Nat) :
    Outcome × World :=
  let w0 := if ready then { w with groups := pid :: w.groups } else w
  let w1 := { w0 with sigint := .SIG_IGN }
  let w2 := tcsetpgrp sys w1 w1.shell_terminal pid
  let w3 := w2.log (.waitpid pid status)
  let w4 := tcsetpgrp sys w3 w3.shell_terminal w3.shell_pgid
  let w5 := { w4 with sigint := .SIG_DFL }
  let w6 := reset_stdio sys w5
  let w7 := reset_stdio sys w6
  (.ret 0, w7)

/-- Lines 252-298 of `cmd_run_prog`: the call of `fork` and what follows it. -/
def fork_and_run (sys : Sys) (fk : ForkRet) (w : World) (tokens : Tokens)
    (program_path : String) (is_redirected : Nat) : Outcome × World :=
  let w1 := w.log .fork
  match fk with
  | .fail => (.ret 1, w1.log (.perror "创建子进程失败!"))
  | .child self => child_branch sys w1 self tokens program_path is_redirected
  | .parent pid ready status => parent_branch sys w1 pid ready status

/-- Embedding of `cmd_run_prog` (lines 217-299), as run by one process: `fk` is what `fork`
returns to it. -/
def cmd_run_prog (sys : Sys) (fk : ForkRet) (w : World) (tokens : Tokens) : Outcome × World :=
  let tokens_length := tokens.length
  if tokens_length < 1 then
    (.ret 1, w.log (.printf "run: 需要至少一个命令或可执行程序的路径\n"))
  else
    match get_full_path sys tokens[0]? with
    | none => (.ret 1, w.log (.printf "找不到文件！\n"))
    | some program_path =>
      if tokens_length ≥ 3 then
        if tokens[tokens_length - 2]? = some ">" then
          let r := redirect_output sys w tokens[tokens_length - 1]?
          if r.1 ≠ 0 then (.ret 1, r.2)
          else fork_and_run sys fk r.2 tokens program_path 1
        else if tokens[tokens_length - 2]? = some "<" then
          let r := redirect_input sys w tokens[tokens_length - 1]?
          if r.1 ≠ 0 then (.ret 1, r.2)
          else fork_and_run sys fk r.2 tokens program_path 1
        else fork_and_run sys fk w tokens program_path 0
      else fork_and_run sys fk w tokens program_path 0

/-! ## Initialisation (shell.c 311-340) -/

/-- The loop of lines 328-329. Each round assigns `shell_pgid = getpgrp()` and compares it with
the foreground group; when they differ the shell stops itself with `SIGTTIN`. `resumed` lists
the foreground group found each time the stopped shell is continued; `none` means that the
shell is still stopped when the list is used up. -/
def wait_foreground : World → List Nat → Option World
  | w, [] =>
    if w.fg = w.pgrp then some { w with shell_pgid := w.pgrp } else none
  | w, f :: rest =>
    if w.fg = w.pgrp then some { w with shell_pgid := w.pgrp }
    else wait_foreground ({ w with shell_pgid := w.pgrp, fg := f }.log (.kill_SIGTTIN w.pgrp)) rest

/-- Embedding of `init_shell` (lines 311-340). -/
def init_shell (sys : Sys) (resumed : List Nat) (w : World) : Option World :=
  let w1 := { w with shell_terminal := STDIN_FILENO }
  let w2 := { w1 with sigint := .SIG_DFL, sigtstp := .SIG_IGN, sigttou := .SIG_IGN }
  let w3 := { w2 with shell_is_interactive := is_terminal sys w2 w2.shell_terminal }
  if w3.shell_is_interactive then
    match wait_foreground w3 resumed with
    | none => none
    | some w4 =>
      let w5 := { w4 with shell_pgid := w4.pid }
      let w6 := tcsetpgrp sys w5 w5.shell_terminal w5.shell_pgid
      some { w6 with shell_tmodes := sys.tmodes }
  else some w3

/-- The state of the process when `main` starts with descriptors 0 and 1 open: globals
zero-initialised, `stdin` and `stdout` on descriptors 0 and 1, default signal dispositions. -/
def start_world (pid pgrp fg : Nat) (groups : List Nat) (cwd : String) : World :=
  { shell_is_interactive := false
    shell_terminal := 0
    shell_tmodes := 0
    shell_pgid := 0
    pid := pid
    pgrp := pgrp
    fd0 := .inherited
    fd1 := .inherited
    stdin := .desc STDIN_FILENO
    stdout := .desc STDOUT_FILENO
    sigint := .SIG_DFL
    sigtstp := .SIG_DFL
    sigttou := .SIG_DFL
    cwd := cwd
    fg := fg
    groups := groups
    trace := [] }

/-! ## Reference definitions for launches, and sample inputs -/

/-- Whether the file of the trailing redirection clause that the code detects cannot be
opened: `fopen` or the following `freopen` fails. -/
def redirect_open_fails (sys : Sys) (tokens : Tokens) : Bool :=
  decide (3 ≤ tokens.length) &&
    match tokens[tokens.length - 2]?, tokens[tokens.length - 1]? with
    | some op, some f =>
      if op = ">" then !(sys.fopen_ok f "w" && sys.freopen_ok f "w")
      else if op = "<" then !(sys.fopen_ok f "r" && sys.freopen_ok f "r")
      else false
    | _, _ => false

/-- A redirection clause as the specification words it: at least 3 tokens, the second-to-last
exactly `>` or `<`. -/
def redirect_detected (tokens : Tokens) : Bool :=
  decide (3 ≤ tokens.length) &&
    (tokens[tokens.length - 2]? == some ">" || tokens[tokens.length - 2]? == some "<")

/-- The argument vector as the specification words it: with a redirection clause the tokens
without the last two, otherwise all tokens; then the `NULL` terminator. -/
def spec_argv (tokens : Tokens) : List (Option String) :=
  (if redirect_detected tokens then tokens.take (tokens.length - 2) else tokens).map some
    ++ [none]

/-- A system in which `cat`, `echo` and `ls` are found through `PATH="/usr/bin:/bin"` and
every file opens except `missing.txt`. -/
def sys_demo : Sys :=
  { PATH := some "/usr/bin:/bin"
    access := fun p => ["/bin/cat", "/bin/echo", "/bin/ls"].contains p
    fopen_ok := fun p _ => p != "missing.txt"
    freopen_ok := fun p _ => p != "missing.txt"
    tty_path := fun p => p == "/dev/tty"
    stdin_tty := false
    stdout_tty := false
    chdir := fun _ p => if p = "/tmp" then some "/tmp" else none
    execv_ok := fun _ => true
    tmodes := 0 }

/-- A shell with process id and group 5, started while group 7 holds the terminal. -/
def world_demo : World := start_world 5 5 7 [5, 7] "/home"

/-- The state `init_shell` produces from `world_demo` when standard input is not a terminal. -/
def world_noninteractive : World :=
  { world_demo with sigtstp := .SIG_IGN, sigttou := .SIG_IGN }

/-- The system `sys_demo` with standard input on the controlling terminal. -/
def sys_tty : Sys := { sys_demo with stdin_tty := true }

/-- Whether the process that runs the code after `fork` is the shell (not the child). -/
def ForkRet.in_shell : ForkRet → Bool
  | .child _ => false
  | _ => true

/-- The state of the shell after a sequence of launches, each with the answers of the system
and of `fork` during it. -/
def launches : World → List (Sys × ForkRet × Tokens) → World
  | w, [] => w
  | w, c :: rest => launches (cmd_run_prog c.1 c.2.1 w c.2.2).2 rest

/-- The terminal is held by the shell: the foreground group is `shell_pgid`, which is the
process group of the shell and a group of the session. -/
def Owned (w : World) : Prop :=
  w.fg = w.shell_pgid ∧ w.shell_pgid = w.pgrp ∧ w.shell_pgid ∈ w.groups

/-- The state of the shell just before `fork` when the file of a detected clause opens: the
state `redirect_output` leaves with a `>` clause, the state `redirect_input` leaves with a `<`
clause, the state on entry without a clause. -/
def redirected (sys : Sys) (w : World) (tokens : Tokens) : World :=
  if 3 ≤ tokens.length then
    match tokens[tokens.length - 2]?, tokens[tokens.length - 1]? with
    | some op, some f =>
      if op = ">" then (redirect_output sys w (some f)).2
      else if op = "<" then (redirect_input sys w (some f)).2
      else w
    | _, _ => w
  else w

/-- The part of the state that only the hand-off of the terminal touches. -/
def Frame (w w1 : World) : Prop :=
  w1.fg = w.fg ∧ w1.shell_pgid = w.shell_pgid ∧ w1.pgrp = w.pgrp ∧ w1.groups = w.groups ∧
    w1.shell_terminal = w.shell_terminal

/-- The state `init_shell` produces from `world_demo` on a terminal, after the shell was
stopped once and continued in the foreground. -/
def world_interactive : World :=
  { world_demo with
    shell_is_interactive := true
    shell_pgid := 5
    fg := 5
    sigtstp := .SIG_IGN
    sigttou := .SIG_IGN
    trace := [.kill_SIGTTIN 5, .tcsetpgrp 0 5] }

/-- Three launches: `ls` with a child, `cat < missing.txt`, `ls` with `fork` failing. -/
def launches_demo : List (Sys × ForkRet × Tokens) :=
  [(sys_tty, .parent 9 true 0, ["ls"]),
   (sys_tty, .parent 10 false 1, ["cat", "<", "missing.txt"]),
   (sys_tty, .fail, ["ls"])]

/-- Whether an event is an error report (`printf` or `perror`). -/
def Event.is_report : Event → Bool
  | .printf _ => true
  | .perror _ => true
  | _ => false

/-! ## Lemmas on `strtok` and the `PATH` loop -/

theorem split_colon_eq (cs : List Char) :
    split_colon cs = cs.takeWhile (fun x => x != ':') ::
      (match cs.dropWhile (fun x => x != ':') with
       | [] => []
       | _ :: r => split_colon r) := by
  induction cs with
  | nil => simp [split_colon]
  | cons c cs ih =>
    by_cases hc : c = ':'
    · subst hc
      simp [split_colon]
    · have hne : (c != ':') = true := by simp [hc]
      rw [split_colon, if_neg hc, ih]
      simp [List.takeWhile_cons, List.dropWhile_cons, hne]

theorem nonempty_fields_nil : nonempty_fields [] = [] := by
  simp [nonempty_fields, split_colon]

theorem nonempty_fields_colon (cs : List Char) :
    nonempty_fields (':' :: cs) = nonempty_fields cs := by
  simp [nonempty_fields, split_colon]

theorem nonempty_fields_cons (c : Char) (cs : List Char) (hc : c ≠ ':') :
    nonempty_fields (c :: cs) = (c :: cs.takeWhile (fun x => x != ':')) ::
      nonempty_fields ((cs.dropWhile (fun x => x != ':')).drop 1) := by
  have hne : (c != ':') = true := by simp [hc]
  unfold nonempty_fields
  rw [split_colon_eq (c :: cs)]
  simp only [List.takeWhile_cons, List.dropWhile_cons, hne, if_true]
  cases hd : cs.dropWhile (fun x => x != ':') with
  | nil => simp [split_colon]
  | cons d r => simp

theorem strtok_none (buf : List Char) (h : strtok buf ':' = none) :
    nonempty_fields buf = [] := by
  induction buf with
  | nil => exact nonempty_fields_nil
  | cons c cs ih =>
    by_cases hc : c = ':'
    · subst hc
      rw [nonempty_fields_colon]
      apply ih
      simpa [strtok] using h
    · have hne : (c == ':') = false := by simp [hc]
      simp [strtok, List.dropWhile_cons, hne] at h

theorem strtok_some (buf tok rest : List Char) (h : strtok buf ':' = some (tok, rest)) :
    nonempty_fields buf = tok :: nonempty_fields rest ∧ rest.length < buf.length := by
  induction buf with
  | nil => simp [strtok] at h
  | cons c cs ih =>
    by_cases hc : c = ':'
    · subst hc
      rw [nonempty_fields_colon]
      have h2 : strtok cs ':' = some (tok, rest) := by simpa [strtok] using h
      obtain ⟨h3, h4⟩ := ih h2
      exact ⟨h3, by simp only [List.length_cons]; omega⟩
    · have hne : (c == ':') = false := by simp [hc]
      have hne2 : (c != ':') = true := by simp [hc]
      simp only [strtok, List.dropWhile_cons, hne, Bool.false_eq_true, if_false,
        List.takeWhile_cons, hne2, if_true, Option.some.injEq, Prod.mk.injEq] at h
      obtain ⟨h1, h2⟩ := h
      subst h1 h2
      refine ⟨nonempty_fields_cons c cs hc, ?_⟩
      have := (List.dropWhile_sublist (l := cs) (fun x => x != ':')).length_le
      simp only [List.length_drop, List.length_cons]
      omega

theorem path_loop_eq (access : String → Bool) (name : String) (fuel : Nat) (buf : List Char)
    (h : buf.length < fuel) :
    path_loop access name fuel buf =
      ((nonempty_fields buf).map (fun f => candidate name (String.mk f))).find? access := by
  induction fuel generalizing buf with
  | zero => omega
  | succ n ih =>
    unfold path_loop
    cases hs : strtok buf ':' with
    | none => simp [strtok_none buf hs]
    | some tr =>
      obtain ⟨tok, rest⟩ := tr
      obtain ⟨h1, h2⟩ := strtok_some buf tok rest hs
      have ih2 := ih rest (by omega)
      simp only [h1, List.map_cons, List.find?_cons, candidate]
      cases ha : access (String.mk tok ++ "/" ++ name) with
      | true => simp
      | false => simpa [candidate] using ih2

theorem path_entries_eq (env_path : String) :
    path_entries env_path = (nonempty_fields env_path.data).map String.mk := rfl

/-- Resolution of a relative name by the code, in closed form. -/
theorem get_full_path_relative_eq (sys : Sys) (name : String)
    (hrel : name.data.head? ≠ some '/') :
    get_full_path sys (some name) =
      match sys.PATH with
      | none => none
      | some env_path => ((path_entries env_path).map (candidate name)).find? sys.access := by
  unfold get_full_path
  simp only [hrel, if_false]
  cases hp : sys.PATH with
  | none => rfl
  | some env_path =>
    simp only
    rw [path_loop_eq _ _ _ _ (Nat.lt_succ_self _), path_entries_eq, List.map_map]
    rfl


theorem get_full_path_relative_nonempty (sys : Sys) (name : String)
    (hrel : name.data.head? ≠ some '/') :
    get_full_path sys (some name) = resolve_nonempty sys name := by
  rw [get_full_path_relative_eq sys name hrel]
  rfl

theorem path_entries_eq_fields (env_path : String) (h : "" ∉ path_fields env_path) :
    path_entries env_path = path_fields env_path := by
  unfold path_entries path_fields
  congr 1
  rw [List.filter_eq_self]
  intro f hf
  cases f with
  | nil =>
    exfalso
    apply h
    unfold path_fields
    exact List.mem_map.mpr ⟨[], hf, rfl⟩
  | cons c cs => rfl

/-! ## Path resolution: relative names (C1) -/

/-- C1, as stated, fails: with `PATH=":/bin"` the entries are `""` and `"/bin"`; the candidate
of the first entry, `"/ls"`, exists, yet `get_full_path` returns the later match `"/bin/ls"`,
because `strtok` skips empty entries. -/
theorem get_full_path_skips_empty_entry :
    "ls".data.head? ≠ some '/' ∧
    path_fields ":/bin" = ["", "/bin"] ∧
    (sys_of (some ":/bin") ["/ls", "/bin/ls"]).access (candidate "ls" "") = true ∧
    resolve_spec (sys_of (some ":/bin") ["/ls", "/bin/ls"]) "ls" = some "/ls" ∧
    get_full_path (sys_of (some ":/bin") ["/ls", "/bin/ls"]) (some "ls") = some "/bin/ls" := by
  decide

/-- C1, amended: for a name that does not start with `/`, `get_full_path` returns `NULL` when
`PATH` is unset, and otherwise the first existing `dir + "/" + name` over the non-empty
`':'`-separated entries of `PATH`, scanned left to right (`NULL` when there is none); when
`PATH` has no empty entry this is the first existing candidate over all its entries. -/
theorem get_full_path_first_nonempty_entry (sys : Sys) (name : String)
    (hrel : name.data.head? ≠ some '/') :
    (sys.PATH = none → get_full_path sys (some name) = none) ∧
    (∀ env_path, sys.PATH = some env_path →
      get_full_path sys (some name) =
        ((path_entries env_path).map (candidate name)).find? sys.access) ∧
    (∀ env_path, sys.PATH = some env_path →
      ∀ r, get_full_path sys (some name) = some r →
        ∃ before dir after, path_entries env_path = before ++ dir :: after ∧
          r = candidate name dir ∧ sys.access r = true ∧
          ∀ d ∈ before, sys.access (candidate name d) = false) ∧
    ((∀ env_path, sys.PATH = some env_path → "" ∉ path_fields env_path) →
      get_full_path sys (some name) = resolve_spec sys name) := by
  have key := get_full_path_relative_nonempty sys name hrel
  refine ⟨?_, ?_, ?_, ?_⟩
  · intro hp
    rw [key]
    simp [resolve_nonempty, hp]
  · intro env_path hp
    rw [key]
    simp [resolve_nonempty, hp]
  · intro env_path hp r hr
    rw [key] at hr
    simp only [resolve_nonempty, hp] at hr
    obtain ⟨hacc, pre, post, hsplit, hpre⟩ := List.find?_eq_some.mp hr
    obtain ⟨before, rest, hent, hb, hrest⟩ := List.map_eq_append_iff.mp hsplit
    obtain ⟨dir, after, hrest2, hdir, _⟩ := List.map_eq_cons_iff.mp hrest
    refine ⟨before, dir, after, ?_, hdir.symm, hacc, ?_⟩
    · rw [hent, hrest2]
    · intro d hd
      have := hpre (candidate name d) (by rw [← hb]; exact List.mem_map_of_mem _ hd)
      simpa using this
  · intro hne
    rw [key]
    unfold resolve_nonempty resolve_spec
    cases hp : sys.PATH with
    | none => rfl
    | some env_path =>
      simp only
      rw [path_entries_eq_fields env_path (hne env_path hp)]

/-- Witness of C1 (amended): `ls` found in the second entry of `PATH="/usr/bin:/bin"`. -/
theorem get_full_path_first_nonempty_entry_witness :
    "ls".data.head? ≠ some '/' ∧
    get_full_path (sys_of (some "/usr/bin:/bin") ["/bin/ls"]) (some "ls") =
      ((path_entries "/usr/bin:/bin").map (candidate "ls")).find?
        (sys_of (some "/usr/bin:/bin") ["/bin/ls"]).access :=
  ⟨by decide,
   (get_full_path_first_nonempty_entry (sys_of (some "/usr/bin:/bin") ["/bin/ls"]) "ls"
      (by decide)).2.1 "/usr/bin:/bin" rfl⟩

/-! ## Path resolution: absolute names (C2) -/

theorem get_full_path_absolute_eq (sys : Sys) (name : String)
    (habs : name.data.head? = some '/') :
    get_full_path sys (some name) = if sys.access name then some name else none := by
  simp [get_full_path, habs]

/-- C2: for a name that starts with `/`, `get_full_path` succeeds exactly when `access` finds
the name (an existence check), what it returns is the name itself, and the result is the same
whatever `PATH` is. -/
theorem get_full_path_absolute (sys : Sys) (name : String)
    (habs : name.data.head? = some '/') :
    ((get_full_path sys (some name)).isSome = sys.access name) ∧
    (∀ r, get_full_path sys (some name) = some r → r = name) ∧
    (sys.access name = true → get_full_path sys (some name) = some name) ∧
    (∀ env_path, get_full_path { sys with PATH := env_path } (some name) =
      get_full_path sys (some name)) := by
  have h : ∀ s : Sys, get_full_path s (some name) =
      if s.access name then some name else none :=
    fun s => get_full_path_absolute_eq s name habs
  refine ⟨?_, ?_, ?_, ?_⟩
  · rw [h]; cases sys.access name <;> simp
  · intro r hr
    rw [h] at hr
    cases ha : sys.access name <;> simp [ha] at hr
    exact hr.symm
  · intro ha
    rw [h, ha]; simp
  · intro env_path
    rw [h, h]

/-- Witness of C2: `/bin/ls` exists and resolves to itself. -/
theorem get_full_path_absolute_witness :
    "/bin/ls".data.head? = some '/' ∧
    get_full_path (sys_of none ["/bin/ls"]) (some "/bin/ls") = some "/bin/ls" :=
  ⟨by decide, (get_full_path_absolute (sys_of none ["/bin/ls"]) "/bin/ls" (by decide)).2.2.1
    (by decide)⟩

/-! ## Resolved paths (C9) -/

/-- C9, as stated, fails: with `PATH="bin"` the name `ls` resolves to `bin/ls`, which does not
begin with `/`. -/
theorem get_full_path_relative_result :
    get_full_path (sys_of (some "bin") ["bin/ls"]) (some "ls") = some "bin/ls" ∧
    "bin/ls".data.head? ≠ some '/' := by
  decide

/-- C9, amended: whenever `get_full_path` succeeds the returned path existed at resolution
time; it begins with `/` when the name begins with `/` or when every non-empty entry of `PATH`
begins with `/`. -/
theorem get_full_path_exists (sys : Sys) (name r : String)
    (h : get_full_path sys (some name) = some r) :
    sys.access r = true ∧
    ((name.data.head? = some '/' ∨
      ∀ env_path, sys.PATH = some env_path →
        ∀ d ∈ path_entries env_path, d.data.head? = some '/') →
      r.data.head? = some '/') := by
  by_cases habs : name.data.head? = some '/'
  · rw [get_full_path_absolute_eq sys name habs] at h
    cases ha : sys.access name with
    | false => simp [ha] at h
    | true =>
      simp only [ha, if_true, Option.some.injEq] at h
      subst h
      exact ⟨ha, fun _ => habs⟩
  · have key := get_full_path_relative_nonempty sys name habs
    rw [key] at h
    unfold resolve_nonempty at h
    cases hp : sys.PATH with
    | none => simp [hp] at h
    | some env_path =>
      simp only [hp] at h
      refine ⟨List.find?_some h, ?_⟩
      intro hor
      rcases hor with h1 | h2
      · exact absurd h1 habs
      · have hmem := List.mem_of_find?_eq_some h
        obtain ⟨d, hd, hdr⟩ := List.mem_map.mp hmem
        have hd2 := h2 env_path rfl d hd
        subst hdr
        cases hdd : d.data with
        | nil => simp [hdd] at hd2
        | cons c cs =>
          simp only [hdd, List.head?_cons, Option.some.injEq] at hd2
          simp [candidate, hdd, hd2]

/-- Witness of C9 (amended): `ls` resolved through `PATH="/bin"`. -/
theorem get_full_path_exists_witness :
    get_full_path (sys_of (some "/bin") ["/bin/ls"]) (some "ls") = some "/bin/ls" ∧
    (sys_of (some "/bin") ["/bin/ls"]).access "/bin/ls" = true :=
  ⟨by decide,
   (get_full_path_exists (sys_of (some "/bin") ["/bin/ls"]) "ls" "/bin/ls" (by decide)).1⟩


/-! ## Descriptor operations leave the rest of the state alone -/

theorem set_fd_frame (w : World) (fd : Nat) (b : Binding) :
    (set_fd w fd b).trace = w.trace ∧ (set_fd w fd b).fg = w.fg ∧
    (set_fd w fd b).shell_pgid = w.shell_pgid ∧ (set_fd w fd b).pgrp = w.pgrp ∧
    (set_fd w fd b).groups = w.groups ∧ (set_fd w fd b).shell_terminal = w.shell_terminal ∧
    (set_fd w fd b).stdin = w.stdin ∧ (set_fd w fd b).stdout = w.stdout := by
  unfold set_fd
  split
  · simp
  · split <;> simp

theorem open_lowest_frame (w : World) (path : String) :
    (open_lowest w path).1.trace = w.trace ∧ (open_lowest w path).1.fg = w.fg ∧
    (open_lowest w path).1.shell_pgid = w.shell_pgid ∧ (open_lowest w path).1.pgrp = w.pgrp ∧
    (open_lowest w path).1.groups = w.groups ∧
    (open_lowest w path).1.shell_terminal = w.shell_terminal ∧
    (open_lowest w path).1.stdin = w.stdin ∧ (open_lowest w path).1.stdout = w.stdout := by
  unfold open_lowest
  split
  · simp
  · split <;> simp

theorem fclose_frame (w : World) (a : Attach) :
    (fclose w a).trace = w.trace ∧ (fclose w a).fg = w.fg ∧
    (fclose w a).shell_pgid = w.shell_pgid ∧ (fclose w a).pgrp = w.pgrp ∧
    (fclose w a).groups = w.groups ∧ (fclose w a).shell_terminal = w.shell_terminal ∧
    (fclose w a).stdin = w.stdin ∧ (fclose w a).stdout = w.stdout := by
  unfold fclose
  split
  · exact set_fd_frame _ _ _
  · simp

theorem freopen_frame (sys : Sys) (w : World) (path mode : String) (a : Attach) :
    (freopen sys w path mode a).1.trace = w.trace ∧ (freopen sys w path mode a).1.fg = w.fg ∧
    (freopen sys w path mode a).1.shell_pgid = w.shell_pgid ∧
    (freopen sys w path mode a).1.pgrp = w.pgrp ∧
    (freopen sys w path mode a).1.groups = w.groups ∧
    (freopen sys w path mode a).1.shell_terminal = w.shell_terminal ∧
    (freopen sys w path mode a).1.stdin = w.stdin ∧
    (freopen sys w path mode a).1.stdout = w.stdout := by
  unfold freopen
  split
  · split
    · exact set_fd_frame _ _ _
    · simp
    · exact open_lowest_frame _ _
  · exact fclose_frame _ _

theorem redirect_output_frame (sys : Sys) (w : World) (f : String) :
    Frame w (redirect_output sys w (some f)).2 := by
  unfold redirect_output Frame
  simp only
  split
  · simp [World.log]
  · split <;> simp [World.log, fclose_frame, freopen_frame, open_lowest_frame]

theorem redirect_input_frame (sys : Sys) (w : World) (f : String) :
    Frame w (redirect_input sys w (some f)).2 := by
  unfold redirect_input Frame
  simp only
  split
  · simp [World.log]
  · split <;> simp [World.log, fclose_frame, freopen_frame, open_lowest_frame]

theorem redirect_output_ok (sys : Sys) (w : World) (f : String)
    (h1 : sys.fopen_ok f "w" = true) (h2 : sys.freopen_ok f "w" = true) :
    (redirect_output sys w (some f)).1 = 0 ∧
    (redirect_output sys w (some f)).2.trace =
      w.trace ++ [.fopen f "w", .freopen f "w" STDOUT_FILENO] := by
  simp [redirect_output, h1, h2, World.log, freopen_frame, open_lowest_frame]

theorem redirect_input_ok (sys : Sys) (w : World) (f : String)
    (h1 : sys.fopen_ok f "r" = true) (h2 : sys.freopen_ok f "r" = true) :
    (redirect_input sys w (some f)).1 = 0 ∧
    (redirect_input sys w (some f)).2.trace =
      w.trace ++ [.fopen f "r", .freopen f "r" STDIN_FILENO] := by
  simp [redirect_input, h1, h2, World.log, freopen_frame, open_lowest_frame]

theorem redirect_output_fail (sys : Sys) (w : World) (f : String)
    (h : (sys.fopen_ok f "w" && sys.freopen_ok f "w") = false) :
    (redirect_output sys w (some f)).1 = 1 ∧
    ∃ evs, (redirect_output sys w (some f)).2.trace = w.trace ++ evs ∧
      Event.fork ∉ evs ∧ ∃ e ∈ evs, e.is_report = true := by
  cases h1 : sys.fopen_ok f "w"
  · exact ⟨by simp [redirect_output, h1],
      [.fopen f "w", .perror "open file error！"],
      by simp [redirect_output, h1, World.log], by simp, by simp [Event.is_report]⟩
  · have h2 : sys.freopen_ok f "w" = false := by simpa [h1] using h
    exact ⟨by simp [redirect_output, h1, h2],
      [.fopen f "w", .freopen f "w" STDOUT_FILENO, .perror "redirect file error！"],
      by simp [redirect_output, h1, h2, World.log, fclose_frame, freopen_frame,
        open_lowest_frame],
      by simp, by simp [Event.is_report]⟩

theorem redirect_input_fail (sys : Sys) (w : World) (f : String)
    (h : (sys.fopen_ok f "r" && sys.freopen_ok f "r") = false) :
    (redirect_input sys w (some f)).1 = 1 ∧
    ∃ evs, (redirect_input sys w (some f)).2.trace = w.trace ++ evs ∧
      Event.fork ∉ evs ∧ ∃ e ∈ evs, e.is_report = true := by
  cases h1 : sys.fopen_ok f "r"
  · exact ⟨by simp [redirect_input, h1],
      [.fopen f "r", .perror "打开文件出错!"],
      by simp [redirect_input, h1, World.log], by simp, by simp [Event.is_report]⟩
  · have h2 : sys.freopen_ok f "r" = false := by simpa [h1] using h
    exact ⟨by simp [redirect_input, h1, h2],
      [.fopen f "r", .freopen f "r" STDIN_FILENO, .perror "重定向标准输入到文件失败！"],
      by simp [redirect_input, h1, h2, World.log, fclose_frame, freopen_frame,
        open_lowest_frame],
      by simp, by simp [Event.is_report]⟩

/-! ## Errors before `fork` (C3) -/

theorem new_events_log (w : World) (e : Event) : new_events w (w.log e) = [e] := by
  simp [new_events, World.log]

/-- C3: when resolution fails, or the file of the trailing redirection clause cannot be opened,
`cmd_run_prog` returns 1, reports an error and does not call `fork`. -/
theorem cmd_run_prog_error_before_fork (sys : Sys) (fk : ForkRet) (w : World) (tokens : Tokens)
    (h : get_full_path sys tokens[0]? = none ∨ redirect_open_fails sys tokens = true) :
    (cmd_run_prog sys fk w tokens).1 = .ret 1 ∧
    Event.fork ∉ new_events w (cmd_run_prog sys fk w tokens).2 ∧
    (∃ e ∈ new_events w (cmd_run_prog sys fk w tokens).2, e.is_report = true) := by
  unfold cmd_run_prog
  simp only
  split
  · simp [new_events_log, Event.is_report]
  · rename_i hlen
    split
    · simp [new_events_log, Event.is_report]
    · rename_i program_path hres
      rcases h with h | h
      · rw [hres] at h; simp at h
      · unfold redirect_open_fails at h
        simp only [Bool.and_eq_true, decide_eq_true_eq] at h
        obtain ⟨h3, h⟩ := h
        have h3' : tokens.length ≥ 3 := h3
        simp only [h3', if_true]
        cases hop : tokens[tokens.length - 2]? with
        | none => simp [hop] at h
        | some op =>
          cases hf : tokens[tokens.length - 1]? with
          | none => simp [hop, hf] at h
          | some f =>
            simp only [hop, hf] at h
            by_cases hgt : op = ">"
            · subst hgt
              simp only [if_true, Bool.not_eq_true'] at h
              obtain ⟨h1, evs, h2, h4, h5⟩ := redirect_output_fail sys w f h
              simp only [h1, if_true, new_events, h2, List.drop_left, ne_eq, one_ne_zero,
                not_false_eq_true]
              exact ⟨trivial, h4, h5⟩
            · by_cases hlt : op = "<"
              · subst hlt
                have hne : ¬ (some "<" = some ">") := by decide
                simp only [hgt, if_false, if_true, Bool.not_eq_true'] at h
                simp only [hne, if_false]
                obtain ⟨h1, evs, h2, h4, h5⟩ := redirect_input_fail sys w f h
                simp only [h1, if_true, new_events, h2, List.drop_left, ne_eq, one_ne_zero,
                  not_false_eq_true]
                exact ⟨trivial, h4, h5⟩
              · simp [hgt, hlt] at h


/-- Witness of C3: `cat < missing.txt` with the file absent. -/
theorem cmd_run_prog_error_before_fork_witness :
    (get_full_path sys_demo (["cat", "<", "missing.txt"] : Tokens)[0]? = none ∨
      redirect_open_fails sys_demo ["cat", "<", "missing.txt"] = true) ∧
    (cmd_run_prog sys_demo (.parent 9 true 0) world_demo ["cat", "<", "missing.txt"]).1 =
      .ret 1 ∧
    Event.fork ∉ new_events world_demo
      (cmd_run_prog sys_demo (.parent 9 true 0) world_demo ["cat", "<", "missing.txt"]).2 :=
  have h := cmd_run_prog_error_before_fork sys_demo (.parent 9 true 0) world_demo
    ["cat", "<", "missing.txt"] (Or.inr (by decide))
  ⟨Or.inr (by decide), h.1, h.2.1⟩

/-! ## The argument vector (C5) -/

theorem build_argv_eq_take (tokens : Tokens) (k : Nat) (hk : k ≤ tokens.length) :
    build_argv tokens k = (tokens.take k).map some ++ [none] := by
  unfold build_argv
  congr 1
  induction k with
  | zero => simp
  | succ k ih =>
    have hlt : k < tokens.length := by omega
    rw [List.range_succ, List.map_append, ih (by omega), List.take_succ, List.map_append]
    simp [List.getElem?_eq_getElem hlt]

theorem new_events_child_branch (sys : Sys) (w w1 : World) (self : Nat) (tokens : Tokens)
    (p : String) (r : Nat) (evs : List Event) (h : w1.trace = w.trace ++ evs) :
    ∃ tail, new_events w (child_branch sys w1 self tokens p r).2 =
        evs ++ Event.execv p (build_argv tokens
          (if r = 1 then tokens.length - 2 else tokens.length)) :: tail ∧
      (∀ e ∈ tail, ∃ m, e = Event.perror m) ∧
      (child_branch sys w1 self tokens p r).1 =
        if sys.execv_ok p then
          .exec p (build_argv tokens (if r = 1 then tokens.length - 2 else tokens.length))
        else .exit 1 := by
  unfold child_branch
  cases hx : sys.execv_ok p
  · refine ⟨[Event.perror "执行子进程错误!"], ?_, ?_, ?_⟩
    · simp [new_events, World.log, h]
    · simp
    · simp
  · refine ⟨[], ?_, ?_, ?_⟩
    · simp [new_events, World.log, h]
    · simp
    · simp

theorem cmd_run_prog_child_cases (sys : Sys) (self : Nat) (w : World) (tokens : Tokens)
    (p : String) (hres : get_full_path sys tokens[0]? = some p)
    (hopen : redirect_open_fails sys tokens = false) :
    ∃ w1 evs r, cmd_run_prog sys (.child self) w tokens = child_branch sys w1 self tokens p r ∧
      w1.trace = w.trace ++ evs ∧
      (r = 1 ↔ redirect_detected tokens = true) ∧
      (1 ≤ tokens.length ∧ (r = 1 → 3 ≤ tokens.length)) ∧
      (∀ q a, Event.execv q a ∉ evs) ∧
      (redirect_detected tokens = true ↔ ∃ f mode, Event.fopen f mode ∈ evs) := by
  have hlen : ¬ tokens.length < 1 := by
    intro h
    have : tokens = [] := List.length_eq_zero.mp (by omega)
    subst this
    simp [get_full_path] at hres
  unfold cmd_run_prog
  simp only [hlen, if_false, hres]
  by_cases h3 : tokens.length ≥ 3
  · simp only [h3, if_true]
    have hlt1 : tokens.length - 1 < tokens.length := by omega
    obtain ⟨f, hf⟩ : ∃ f, tokens[tokens.length - 1]? = some f :=
      ⟨_, List.getElem?_eq_getElem hlt1⟩
    unfold redirect_open_fails at hopen
    have h3' : 3 ≤ tokens.length := h3
    simp only [h3', decide_True, Bool.true_and, hf] at hopen
    by_cases hgt : tokens[tokens.length - 2]? = some ">"
    · simp only [hgt, if_true, Bool.not_eq_false', Bool.and_eq_true] at hopen
      simp only [hgt, if_true, hf]
      refine ⟨(redirect_output sys w (some f)).2.log .fork,
        [Event.fopen f "w", Event.freopen f "w" STDOUT_FILENO, Event.fork], 1, ?_, ?_,
        ?_, ?_, ?_, ?_⟩
      · simp [(redirect_output_ok sys w f hopen.1 hopen.2).1, fork_and_run]
      · simp [(redirect_output_ok sys w f hopen.1 hopen.2).2, World.log]
      · simp [redirect_detected, h3', hgt]
      · exact ⟨Nat.le_trans (by decide) h3', fun _ => trivial⟩
      · simp
      · simp [redirect_detected, h3', hgt]
    · by_cases hlt : tokens[tokens.length - 2]? = some "<"
      · have hne : ¬ ("<" : String) = ">" := by decide
        simp only [hlt, hne, if_false, if_true, Bool.not_eq_false', Bool.and_eq_true] at hopen
        have hne2 : ¬ (some "<" = some ">") := by decide
        simp only [hlt, hne2, if_false, if_true, hf]
        refine ⟨(redirect_input sys w (some f)).2.log .fork,
          [Event.fopen f "r", Event.freopen f "r" STDIN_FILENO, Event.fork], 1, ?_, ?_,
          ?_, ?_, ?_, ?_⟩
        · simp [(redirect_input_ok sys w f hopen.1 hopen.2).1, fork_and_run]
        · simp [(redirect_input_ok sys w f hopen.1 hopen.2).2, World.log]
        · simp [redirect_detected, h3', hlt]
        · exact ⟨Nat.le_trans (by decide) h3', fun _ => trivial⟩
        · simp
        · simp [redirect_detected, h3', hlt]
      · simp only [hgt, hlt, if_false]
        refine ⟨w.log .fork, [Event.fork], 0, rfl, ?_, ?_, ?_, ?_, ?_⟩
        · simp [World.log]
        · simp [redirect_detected, hgt, hlt]
        · omega
        · simp
        · simp [redirect_detected, hgt, hlt]
  · simp only [h3, if_false]
    refine ⟨w.log .fork, [Event.fork], 0, rfl, ?_, ?_, ?_, ?_, ?_⟩
    · simp [World.log]
    · have : ¬ 3 ≤ tokens.length := h3
      simp [redirect_detected, this]
    · omega
    · simp
    · have : ¬ 3 ≤ tokens.length := h3
      simp [redirect_detected, this]

/-- C5: in the child, when the command resolves and the file of a detected clause opens,
`execv` is called once, with the resolved path and the argument vector of the specification:
the tokens without the last two exactly when there are at least 3 tokens and the
second-to-last is `>` or `<`, all tokens otherwise, then `NULL`; `argv[0]` is the command
token, and the redirection functions are entered exactly when a clause is detected. -/
theorem cmd_run_prog_child_argv (sys : Sys) (self : Nat) (w : World) (tokens : Tokens)
    (p : String) (hres : get_full_path sys tokens[0]? = some p)
    (hopen : redirect_open_fails sys tokens = false) :
    (cmd_run_prog sys (.child self) w tokens).1 =
      (if sys.execv_ok p then .exec p (spec_argv tokens) else .exit 1) ∧
    Event.execv p (spec_argv tokens) ∈
      new_events w (cmd_run_prog sys (.child self) w tokens).2 ∧
    (∀ q a, Event.execv q a ∈ new_events w (cmd_run_prog sys (.child self) w tokens).2 →
      q = p ∧ a = spec_argv tokens) ∧
    (spec_argv tokens).head? = some tokens[0]? ∧
    (spec_argv tokens).length =
      (if redirect_detected tokens then tokens.length - 2 else tokens.length) + 1 ∧
    (redirect_detected tokens = true ↔
      ∃ f mode, Event.fopen f mode ∈
        new_events w (cmd_run_prog sys (.child self) w tokens).2) := by
  obtain ⟨w1, evs, r, hrun, htr, hr, hk, hnoexec, hfopen⟩ :=
    cmd_run_prog_child_cases sys self w tokens p hres hopen
  obtain ⟨tail, hev, htail, hout⟩ := new_events_child_branch sys w w1 self tokens p r evs htr
  have hargv : build_argv tokens (if r = 1 then tokens.length - 2 else tokens.length) =
      spec_argv tokens := by
    rw [build_argv_eq_take tokens _ (by split <;> omega)]
    unfold spec_argv
    by_cases hd : redirect_detected tokens = true
    · simp [hd, hr.mpr hd]
    · have hr1 : ¬ r = 1 := fun h1 => hd (hr.mp h1)
      simp [hd, hr1]
  rw [hargv] at hev hout
  rw [hrun]
  refine ⟨hout, ?_, ?_, ?_, ?_, ?_⟩
  · rw [hev]; simp
  · intro q a hmem
    rw [hev] at hmem
    rcases List.mem_append.mp hmem with h1 | h1
    · exact absurd h1 (hnoexec q a)
    · rcases List.mem_cons.mp h1 with h2 | h2
      · injection h2 with h3 h4
        exact ⟨h3, h4⟩
      · obtain ⟨m, hm⟩ := htail _ h2
        cases hm
  · unfold spec_argv
    cases tokens with
    | nil => simp [get_full_path] at hres
    | cons t ts =>
      by_cases hd : redirect_detected (t :: ts) = true
      · have h3 : 3 ≤ (t :: ts).length := by
          unfold redirect_detected at hd
          simp only [Bool.and_eq_true, decide_eq_true_eq] at hd
          exact hd.1
        simp only [List.length_cons] at h3
        have : ts.length + 1 - 2 = (ts.length - 2) + 1 := by omega
        simp [hd, this]
      · simp [hd]
  · unfold spec_argv
    by_cases hd : redirect_detected tokens = true
    · simp [hd]
    · simp [hd]
  · rw [hev, hfopen]
    constructor
    · rintro ⟨f, mode, hm⟩
      exact ⟨f, mode, List.mem_append_left _ hm⟩
    · rintro ⟨f, mode, hm⟩
      rcases List.mem_append.mp hm with h1 | h1
      · exact ⟨f, mode, h1⟩
      · rcases List.mem_cons.mp h1 with h2 | h2
        · cases h2
        · obtain ⟨m, hm2⟩ := htail _ h2
          cases hm2


/-- Witness of C5: `echo hi > out.txt` executes `/bin/echo` with `argv = {"echo", "hi", NULL}`. -/
theorem cmd_run_prog_child_argv_witness :
    get_full_path sys_demo (["echo", "hi", ">", "out.txt"] : Tokens)[0]? = some "/bin/echo" ∧
    redirect_open_fails sys_demo ["echo", "hi", ">", "out.txt"] = false ∧
    (cmd_run_prog sys_demo (.child 9) world_demo ["echo", "hi", ">", "out.txt"]).1 =
      .exec "/bin/echo" [some "echo", some "hi", none] :=
  ⟨by decide, by decide,
   (cmd_run_prog_child_argv sys_demo 9 world_demo ["echo", "hi", ">", "out.txt"] "/bin/echo"
      (by decide) (by decide)).1.trans (by decide)⟩

/-! ## A trailing operator without a path (C7) -/

/-- C7, the code at the failing inputs: for `cat <` and `echo hi >` the shell reports nothing,
calls `fork` and returns 0, and the child executes the program with the operator as an
ordinary argument. -/
theorem cmd_run_prog_trailing_operator :
    (cmd_run_prog sys_demo (.parent 9 true 0) world_demo ["cat", "<"]).1 = .ret 0 ∧
    Event.fork ∈ new_events world_demo
      (cmd_run_prog sys_demo (.parent 9 true 0) world_demo ["cat", "<"]).2 ∧
    (∀ e ∈ new_events world_demo
      (cmd_run_prog sys_demo (.parent 9 true 0) world_demo ["cat", "<"]).2,
      e.is_report = false) ∧
    (cmd_run_prog sys_demo (.child 9) world_demo ["cat", "<"]).1 =
      .exec "/bin/cat" [some "cat", some "<", none] ∧
    (cmd_run_prog sys_demo (.parent 9 true 0) world_demo ["echo", "hi", ">"]).1 = .ret 0 ∧
    Event.fork ∈ new_events world_demo
      (cmd_run_prog sys_demo (.parent 9 true 0) world_demo ["echo", "hi", ">"]).2 ∧
    (cmd_run_prog sys_demo (.child 9) world_demo ["echo", "hi", ">"]).1 =
      .exec "/bin/echo" [some "echo", some "hi", some ">", none] := by
  decide

/-! ## Builtin `cd` (C8) -/

/-- C8: with a token count other than 2, `cmd_cd` returns 1 without calling `chdir` and the
working directory is unchanged; with exactly one argument it calls `chdir` on that argument and
returns 0 with the new working directory when `chdir` succeeds, 1 with the working directory
unchanged when it fails. -/
theorem cmd_cd_contract (sys : Sys) (w : World) (tokens : Tokens) :
    (tokens.length ≠ 2 →
      (cmd_cd sys w tokens).1 = 1 ∧
      (cmd_cd sys w tokens).2.cwd = w.cwd ∧
      ∀ path, Event.chdir path ∉ new_events w (cmd_cd sys w tokens).2) ∧
    (∀ cmd arg, tokens = [cmd, arg] →
      Event.chdir (some arg) ∈ new_events w (cmd_cd sys w tokens).2 ∧
      (∀ path, Event.chdir path ∈ new_events w (cmd_cd sys w tokens).2 → path = some arg) ∧
      (∀ dir, sys.chdir w.cwd arg = some dir →
        (cmd_cd sys w tokens).1 = 0 ∧ (cmd_cd sys w tokens).2.cwd = dir) ∧
      (sys.chdir w.cwd arg = none →
        (cmd_cd sys w tokens).1 = 1 ∧ (cmd_cd sys w tokens).2.cwd = w.cwd)) := by
  constructor
  · intro hlen
    simp [cmd_cd, tokens_get_length, hlen, new_events, World.log]
  · intro cmd arg ht
    subst ht
    cases hc : sys.chdir w.cwd arg with
    | none =>
      simp [cmd_cd, tokens_get_length, tokens_get_token, hc, new_events, World.log]
    | some dir =>
      simp [cmd_cd, tokens_get_length, tokens_get_token, hc, new_events, World.log]

/-- Witness of C8: `cd /tmp` succeeds, `cd` and `cd a b` return 1 and stay in `/home`. -/
theorem cmd_cd_contract_witness :
    (cmd_cd sys_demo world_demo ["cd", "/tmp"]).1 = 0 ∧
    (cmd_cd sys_demo world_demo ["cd", "/tmp"]).2.cwd = "/tmp" ∧
    (cmd_cd sys_demo world_demo ["cd"]).1 = 1 ∧
    (cmd_cd sys_demo world_demo ["cd"]).2.cwd = world_demo.cwd ∧
    (cmd_cd sys_demo world_demo ["cd", "a", "b"]).1 = 1 :=
  have h1 := ((cmd_cd_contract sys_demo world_demo ["cd", "/tmp"]).2 "cd" "/tmp" rfl).2.2.1
    "/tmp" (by decide)
  have h2 := (cmd_cd_contract sys_demo world_demo ["cd"]).1 (by decide)
  have h3 := (cmd_cd_contract sys_demo world_demo ["cd", "a", "b"]).1 (by decide)
  ⟨h1.1, h1.2, h2.1, h2.2.1, h3.1⟩


/-! ## Terminal ownership (C4, C10) -/

theorem tcsetpgrp_frame (sys : Sys) (w : World) (fd pgid : Nat) :
    (tcsetpgrp sys w fd pgid).shell_pgid = w.shell_pgid ∧
    (tcsetpgrp sys w fd pgid).shell_is_interactive = w.shell_is_interactive ∧
    (tcsetpgrp sys w fd pgid).shell_terminal = w.shell_terminal ∧
    (tcsetpgrp sys w fd pgid).pgrp = w.pgrp ∧
    (tcsetpgrp sys w fd pgid).groups = w.groups ∧
    (tcsetpgrp sys w fd pgid).fd0 = w.fd0 ∧
    (tcsetpgrp sys w fd pgid).fd1 = w.fd1 ∧
    (tcsetpgrp sys w fd pgid).stdin = w.stdin ∧
    (tcsetpgrp sys w fd pgid).stdout = w.stdout ∧
    (tcsetpgrp sys w fd pgid).trace = w.trace ++ [.tcsetpgrp fd pgid] ∧
    (tcsetpgrp sys w fd pgid).fg =
      if is_terminal sys w fd && w.groups.contains pgid then pgid else w.fg := by
  unfold tcsetpgrp
  split <;> simp_all [World.log]

theorem reset_stdio_frame (sys : Sys) (w : World) :
    (reset_stdio sys w).fg = w.fg ∧ (reset_stdio sys w).shell_pgid = w.shell_pgid ∧
    (reset_stdio sys w).pgrp = w.pgrp ∧ (reset_stdio sys w).groups = w.groups ∧
    (reset_stdio sys w).shell_terminal = w.shell_terminal ∧
    (reset_stdio sys w).trace = w.trace ++
      [.freopen "/dev/tty" "w" STDOUT_FILENO, .freopen "/dev/tty" "r" STDIN_FILENO] := by
  unfold reset_stdio
  simp [World.log, freopen_frame]

theorem parent_branch_frame (sys : Sys) (w : World) (pid : Nat) (ready : Bool) (status : Nat) :
    (parent_branch sys w pid ready status).1 = .ret 0 ∧
    (parent_branch sys w pid ready status).2.shell_pgid = w.shell_pgid ∧
    (parent_branch sys w pid ready status).2.pgrp = w.pgrp ∧
    (∀ g ∈ w.groups, g ∈ (parent_branch sys w pid ready status).2.groups) := by
  unfold parent_branch
  cases ready <;> simp [reset_stdio_frame, World.log, tcsetpgrp_frame]
  intro g hg
  exact Or.inr hg

theorem parent_branch_fg_owned (sys : Sys) (w : World) (pid : Nat) (ready : Bool) (status : Nat)
    (hfg : w.fg = w.shell_pgid) (hg : w.shell_pgid ∈ w.groups) :
    (parent_branch sys w pid ready status).2.fg = w.shell_pgid := by
  unfold parent_branch
  cases ready <;>
    cases ht : fd_is_terminal sys w.fd0 w.fd1 w.shell_terminal <;>
    simp [reset_stdio_frame, World.log, tcsetpgrp_frame, is_terminal, hfg, hg, ht]

theorem cmd_run_prog_shape (sys : Sys) (fk : ForkRet) (w : World) (tokens : Tokens) :
    (∃ w1, cmd_run_prog sys fk w tokens = (.ret 1, w1) ∧ Frame w w1 ∧
      (get_full_path sys tokens[0]? = none ∨ redirect_open_fails sys tokens = true)) ∨
    (∃ p, get_full_path sys tokens[0]? = some p ∧ redirect_open_fails sys tokens = false ∧
      cmd_run_prog sys fk w tokens =
        fork_and_run sys fk (redirected sys w tokens) tokens p
          (if redirect_detected tokens then 1 else 0)) := by
  unfold cmd_run_prog
  simp only
  by_cases hlen : tokens.length < 1
  · left
    have hnil : tokens = [] := List.length_eq_zero.mp (by omega)
    exact ⟨w.log (.printf "run: 需要至少一个命令或可执行程序的路径\n"), by simp [hlen],
      by simp [Frame, World.log], Or.inl (by subst hnil; rfl)⟩
  · simp only [hlen, if_false]
    cases hres : get_full_path sys tokens[0]? with
    | none =>
      left
      exact ⟨w.log (.printf "找不到文件！\n"), rfl, by simp [Frame, World.log], Or.inl rfl⟩
    | some p =>
      simp only
      by_cases h3 : tokens.length ≥ 3
      · have h3' : 3 ≤ tokens.length := h3
        have hlt1 : tokens.length - 1 < tokens.length := by omega
        obtain ⟨f, hf⟩ : ∃ f, tokens[tokens.length - 1]? = some f :=
          ⟨_, List.getElem?_eq_getElem hlt1⟩
        simp only [h3, if_true, hf]
        by_cases hgt : tokens[tokens.length - 2]? = some ">"
        · simp only [hgt, if_true]
          by_cases hok : sys.fopen_ok f "w" = true ∧ sys.freopen_ok f "w" = true
          · right
            refine ⟨p, rfl, ?_, ?_⟩
            · simp [redirect_open_fails, h3', hgt, hf, hok.1, hok.2]
            · simp [(redirect_output_ok sys w f hok.1 hok.2).1, redirected, h3', hgt, hf,
                redirect_detected]
          · left
            have hbad : (sys.fopen_ok f "w" && sys.freopen_ok f "w") = false := by
              cases h1 : sys.fopen_ok f "w" <;> cases h2 : sys.freopen_ok f "w" <;> simp_all
            refine ⟨(redirect_output sys w (some f)).2, ?_, redirect_output_frame sys w f,
              Or.inr ?_⟩
            · simp [(redirect_output_fail sys w f hbad).1]
            · simp [redirect_open_fails, h3', hgt, hf, hbad]
        · by_cases hlt : tokens[tokens.length - 2]? = some "<"
          · have hne2 : ¬ (some "<" = some ">") := by decide
            have hne : ¬ ("<" : String) = ">" := by decide
            simp only [hlt, hne2, if_false, if_true]
            by_cases hok : sys.fopen_ok f "r" = true ∧ sys.freopen_ok f "r" = true
            · right
              refine ⟨p, rfl, ?_, ?_⟩
              · simp [redirect_open_fails, h3', hlt, hf, hok.1, hok.2, hne]
              · simp [(redirect_input_ok sys w f hok.1 hok.2).1, redirected, h3', hlt, hf,
                  redirect_detected, hne]
            · left
              have hbad : (sys.fopen_ok f "r" && sys.freopen_ok f "r") = false := by
                cases h1 : sys.fopen_ok f "r" <;> cases h2 : sys.freopen_ok f "r" <;> simp_all
              refine ⟨(redirect_input sys w (some f)).2, ?_, redirect_input_frame sys w f,
                Or.inr ?_⟩
              · simp [(redirect_input_fail sys w f hbad).1]
              · simp [redirect_open_fails, h3', hlt, hf, hbad, hne]
          · right
            simp only [hgt, hlt, if_false]
            refine ⟨p, rfl, ?_, ?_⟩
            · unfold redirect_open_fails
              cases hop : tokens[tokens.length - 2]? with
              | none => simp
              | some op =>
                have h1 : ¬ op = ">" := fun h => hgt (by rw [hop, h])
                have h2 : ¬ op = "<" := fun h => hlt (by rw [hop, h])
                simp [hf, h1, h2]
            · have hrd : redirect_detected tokens = false := by
                simp [redirect_detected, hgt, hlt]
              have hre : redirected sys w tokens = w := by
                unfold redirected
                cases hop : tokens[tokens.length - 2]? with
                | none => simp
                | some op =>
                  have h1 : ¬ op = ">" := fun h => hgt (by rw [hop, h])
                  have h2 : ¬ op = "<" := fun h => hlt (by rw [hop, h])
                  simp [hf, h1, h2]
              simp [hrd, hre]
      · right
        have h3' : ¬ 3 ≤ tokens.length := h3
        simp only [h3, if_false]
        refine ⟨p, rfl, ?_, ?_⟩
        · simp [redirect_open_fails, h3']
        · simp [redirected, redirect_detected, h3']

theorem redirected_frame (sys : Sys) (w : World) (tokens : Tokens) :
    Frame w (redirected sys w tokens) := by
  unfold redirected
  split
  · split
    · split
      · exact redirect_output_frame sys w _
      · split
        · exact redirect_input_frame sys w _
        · simp [Frame]
    · simp [Frame]
  · simp [Frame]

theorem fork_and_run_shell (sys : Sys) (fk : ForkRet) (w : World) (tokens : Tokens)
    (p : String) (r : Nat) (hfk : fk.in_shell = true) :
    (fork_and_run sys fk w tokens p r = (.ret 1, (w.log .fork).log (.perror "创建子进程失败!")) ∧
      fk = .fail) ∨
    ∃ pid ready status, fk = .parent pid ready status ∧
      fork_and_run sys fk w tokens p r = parent_branch sys (w.log .fork) pid ready status := by
  cases fk with
  | fail => left; exact ⟨rfl, rfl⟩
  | child self => simp [ForkRet.in_shell] at hfk
  | parent pid ready status => right; exact ⟨pid, ready, status, rfl, rfl⟩

theorem cmd_run_prog_owned (sys : Sys) (fk : ForkRet) (w : World) (tokens : Tokens)
    (hfk : fk.in_shell = true) (how : Owned w) :
    Owned (cmd_run_prog sys fk w tokens).2 ∧
    (cmd_run_prog sys fk w tokens).2.shell_pgid = w.shell_pgid ∧
    (∃ code, (cmd_run_prog sys fk w tokens).1 = .ret code) := by
  obtain ⟨hfg, hpg, hgr⟩ := how
  rcases cmd_run_prog_shape sys fk w tokens with
    ⟨w1, hrun, ⟨f1, f2, f3, f4, _⟩, _⟩ | ⟨p, _, _, hrun⟩
  · rw [hrun]
    refine ⟨⟨?_, ?_, ?_⟩, f2, 1, rfl⟩
    · simp only; rw [f1, f2]; exact hfg
    · simp only; rw [f2, f3]; exact hpg
    · simp only; rw [f2, f4]; exact hgr
  · obtain ⟨f1, f2, f3, f4, _⟩ := redirected_frame sys w tokens
    rw [hrun]
    rcases fork_and_run_shell sys fk (redirected sys w tokens) tokens p
        (if redirect_detected tokens then 1 else 0) hfk with ⟨h, _⟩ | ⟨pid, ready, status, _, h⟩
    · rw [h]
      refine ⟨⟨?_, ?_, ?_⟩, ?_, 1, rfl⟩
      · simp only [World.log]; rw [f1, f2]; exact hfg
      · simp only [World.log]; rw [f2, f3]; exact hpg
      · simp only [World.log]; rw [f2, f4]; exact hgr
      · simp only [World.log]; exact f2
    · rw [h]
      have hw : ((redirected sys w tokens).log .fork).shell_pgid = w.shell_pgid := f2
      have hfr := parent_branch_frame sys ((redirected sys w tokens).log .fork) pid ready status
      have hfg2 := parent_branch_fg_owned sys ((redirected sys w tokens).log .fork) pid ready status
        (by simp only [World.log]; rw [f1, f2]; exact hfg)
        (by simp only [World.log]; rw [f2, f4]; exact hgr)
      obtain ⟨h1, h2, h3, h4⟩ := hfr
      refine ⟨⟨?_, ?_, ?_⟩, ?_, 0, h1⟩
      · rw [hfg2, h2]
      · rw [h2, h3, hw]
        simp only [World.log]; rw [f3]; exact hpg
      · rw [h2]
        apply h4
        simp only [World.log]; rw [f2, f4]; exact hgr
      · rw [h2, hw]

theorem launches_owned (cmds : List (Sys × ForkRet × Tokens)) (w : World) (how : Owned w)
    (hshell : ∀ c ∈ cmds, c.2.1.in_shell = true) :
    Owned (launches w cmds) ∧ (launches w cmds).shell_pgid = w.shell_pgid := by
  induction cmds generalizing w with
  | nil => exact ⟨how, rfl⟩
  | cons c rest ih =>
    have h1 := cmd_run_prog_owned c.1 c.2.1 w c.2.2 (hshell c (List.mem_cons_self _ _)) how
    have h2 := ih (cmd_run_prog c.1 c.2.1 w c.2.2).2 h1.1
      (fun d hd => hshell d (List.mem_cons_of_mem _ hd))
    exact ⟨h2.1, h2.2.trans h1.2.1⟩

theorem wait_foreground_some (resumed : List Nat) (w w1 : World)
    (h : wait_foreground w resumed = some w1) :
    w1.fg = w1.pgrp ∧ w1.pgrp = w.pgrp ∧ w1.pid = w.pid ∧ w1.groups = w.groups ∧
    w1.stdin = w.stdin ∧ w1.stdout = w.stdout ∧ w1.shell_terminal = w.shell_terminal ∧
    w1.shell_is_interactive = w.shell_is_interactive := by
  induction resumed generalizing w with
  | nil =>
    unfold wait_foreground at h
    split at h
    · rename_i hfg
      injection h with h
      subst h
      simp [hfg]
    · cases h
  | cons f rest ih =>
    unfold wait_foreground at h
    split at h
    · rename_i hfg
      injection h with h
      subst h
      simp [hfg]
    · have := ih _ h
      simpa [World.log] using this

theorem init_shell_interactive_owned (sys : Sys) (resumed : List Nat) (w0 s : World)
    (hinit : init_shell sys resumed w0 = some s) (hint : s.shell_is_interactive = true)
    (hleader : w0.pid = w0.pgrp) (hgroup : w0.pgrp ∈ w0.groups) :
    Owned s ∧ s.pgrp = w0.pgrp := by
  unfold init_shell at hinit
  simp only at hinit
  split at hinit
  · split at hinit
    · cases hinit
    · rename_i w4 hw
      obtain ⟨h1, h2, h3, h4, h5, h6, h7, h8⟩ := wait_foreground_some _ _ _ hw
      simp only at h2 h3 h4 h5 h6 h7 h8
      injection hinit with hinit
      subst hinit
      have hpid : w4.pid = w4.pgrp := by rw [h3, h2]; exact hleader
      have hmem : w4.pid ∈ w4.groups := by rw [h3, h4, hleader]; exact hgroup
      refine ⟨⟨?_, ?_, ?_⟩, ?_⟩
      · simp only [tcsetpgrp_frame]
        split
        · rfl
        · rw [h1, hpid]
      · simp only [tcsetpgrp_frame]; exact hpid
      · simp only [tcsetpgrp_frame]; exact hmem
      · simp only [tcsetpgrp_frame]; exact h2
  · rename_i hni
    injection hinit with hinit
    subst hinit
    simp only at hint
    exact absurd hint hni

/-- C4, as stated, fails: started with standard input not on a terminal while group 7 holds
the terminal, `init_shell` leaves the terminal alone; after `ls` has run and `cmd_run_prog` has
returned 0 in the shell, the foreground group is still 7, neither the process group of the
shell (5) nor `shell_pgid` (0). -/
theorem foreground_not_shell_group :
    init_shell sys_demo [] world_demo = some world_noninteractive ∧
    (cmd_run_prog sys_demo (.parent 9 true 0) world_noninteractive ["ls"]).1 = .ret 0 ∧
    (cmd_run_prog sys_demo (.parent 9 true 0) world_noninteractive ["ls"]).2.fg = 7 ∧
    (cmd_run_prog sys_demo (.parent 9 true 0) world_noninteractive ["ls"]).2.pgrp = 5 ∧
    (cmd_run_prog sys_demo (.parent 9 true 0) world_noninteractive ["ls"]).2.shell_pgid = 0 := by
  decide

/-- C4, amended: for every interactive session state produced by `init_shell` in a shell that
leads its process group (its process id is its group id, a group of the session), and every
sequence of launches run in the shell (whatever `fork` returns to it, whatever the status of
the child), after the last `cmd_run_prog` has returned the foreground group of the terminal is
`shell_pgid`, the process group of the shell. -/
theorem launches_foreground_owned (sys0 : Sys) (resumed : List Nat) (w0 s : World)
    (cmds : List (Sys × ForkRet × Tokens))
    (hinit : init_shell sys0 resumed w0 = some s)
    (hint : s.shell_is_interactive = true)
    (hleader : w0.pid = w0.pgrp) (hgroup : w0.pgrp ∈ w0.groups)
    (hshell : ∀ c ∈ cmds, c.2.1.in_shell = true) :
    (launches s cmds).fg = s.shell_pgid ∧
    s.shell_pgid = s.pgrp ∧
    (launches s cmds).pgrp = s.pgrp := by
  obtain ⟨how, _⟩ := init_shell_interactive_owned sys0 resumed w0 s hinit hint hleader hgroup
  obtain ⟨⟨h1, h2, _⟩, h3⟩ := launches_owned cmds s how hshell
  refine ⟨?_, how.2.1, ?_⟩
  · rw [h1, h3]
  · rw [← h2, h3, how.2.1]

/-- Witness of C4 (amended): an interactive shell, stopped once until it is in the foreground,
runs `ls` (delegation succeeds), then `cat < missing.txt` (error before `fork`), then `ls`
with `fork` failing; the foreground group is then `shell_pgid`. -/
theorem launches_foreground_owned_witness :
    init_shell sys_tty [5] world_demo = some world_interactive ∧
    world_interactive.shell_is_interactive = true ∧
    world_demo.pid = world_demo.pgrp ∧ world_demo.pgrp ∈ world_demo.groups ∧
    (∀ c ∈ launches_demo, c.2.1.in_shell = true) ∧
    (launches world_interactive launches_demo).fg = world_interactive.shell_pgid :=
  ⟨by decide, by decide, by decide, by decide, by decide,
   (launches_foreground_owned sys_tty [5] world_demo world_interactive launches_demo
      (by decide) (by decide) (by decide) (by decide) (by decide)).1⟩

/-- C10, the code at the failing inputs: in the non-interactive session that `init_shell`
produces with group 7 in the foreground, `cat < /dev/tty` puts descriptor 0 of the shell on the
terminal before `fork`, so the hand-over moves the foreground group to the group 9 of the
child; and although a first plain `ls` leaves the foreground group alone, `reset_stdio` then
puts descriptor 0 on `/dev/tty`, so a second plain `ls` moves it to the group 10 of its child.
The reclaim to the unset `shell_pgid` (0) fails both times. -/
theorem noninteractive_handoff_changes_foreground :
    init_shell sys_demo [] world_demo = some world_noninteractive ∧
    world_noninteractive.shell_is_interactive = false ∧
    world_noninteractive.shell_pgid = 0 ∧
    world_noninteractive.fg = 7 ∧
    (cmd_run_prog sys_demo (.parent 9 true 0) world_noninteractive
      ["cat", "<", "/dev/tty"]).2.fg = 9 ∧
    (launches world_noninteractive [(sys_demo, .parent 9 true 0, ["ls"])]).fg = 7 ∧
    (launches world_noninteractive [(sys_demo, .parent 9 true 0, ["ls"])]).fd0 =
      .file "/dev/tty" ∧
    (launches world_noninteractive
      [(sys_demo, .parent 9 true 0, ["ls"]), (sys_demo, .parent 10 true 0, ["ls"])]).fg = 10 := by
  decide

/-! ## Redirection and the streams of the shell (C6) -/

theorem cmd_run_prog_success (sys : Sys) (fk : ForkRet) (w : World) (tokens : Tokens)
    (p : String) (hres : get_full_path sys tokens[0]? = some p)
    (hopen : redirect_open_fails sys tokens = false) :
    cmd_run_prog sys fk w tokens =
      fork_and_run sys fk (redirected sys w tokens) tokens p
        (if redirect_detected tokens then 1 else 0) := by
  rcases cmd_run_prog_shape sys fk w tokens with ⟨w1, _, _, hbad⟩ | ⟨q, hq, _, hrun⟩
  · exfalso
    rcases hbad with h | h
    · rw [hres] at h; cases h
    · rw [hopen] at h; cases h
  · rw [hres] at hq
    injection hq with hq
    subst hq
    exact hrun

theorem new_events_parent_branch (sys : Sys) (w w1 : World) (pid : Nat) (ready : Bool)
    (status : Nat) (evs : List Event) (h : w1.trace = w.trace ++ evs) :
    ∃ tail, new_events w (parent_branch sys w1 pid ready status).2 = evs ++ tail := by
  unfold parent_branch
  refine ⟨[.tcsetpgrp w1.shell_terminal pid, .waitpid pid status,
    .tcsetpgrp w1.shell_terminal w1.shell_pgid,
    .freopen "/dev/tty" "w" STDOUT_FILENO, .freopen "/dev/tty" "r" STDIN_FILENO,
    .freopen "/dev/tty" "w" STDOUT_FILENO, .freopen "/dev/tty" "r" STDIN_FILENO], ?_⟩
  cases ready <;>
    simp [new_events, World.log, h, reset_stdio_frame, tcsetpgrp_frame]

theorem new_events_fork_and_run (sys : Sys) (fk : ForkRet) (w w1 : World) (tokens : Tokens)
    (p : String) (r : Nat) (evs : List Event) (h : w1.trace = w.trace ++ evs) :
    ∃ tail, new_events w (fork_and_run sys fk w1 tokens p r).2 = evs ++ Event.fork :: tail := by
  have h1 : (w1.log .fork).trace = w.trace ++ (evs ++ [Event.fork]) := by
    simp [World.log, h]
  cases fk with
  | fail =>
    exact ⟨[.perror "创建子进程失败!"], by simp [fork_and_run, new_events, World.log, h]⟩
  | child self =>
    obtain ⟨tail, ht, _⟩ := new_events_child_branch sys w (w1.log .fork) self tokens p r _ h1
    exact ⟨Event.execv p (build_argv tokens
      (if r = 1 then tokens.length - 2 else tokens.length)) :: tail,
      by simp only [fork_and_run]; rw [ht]; simp⟩
  | parent pid ready status =>
    obtain ⟨tail, ht⟩ := new_events_parent_branch sys w (w1.log .fork) pid ready status _ h1
    exact ⟨tail, by simp only [fork_and_run]; rw [ht]; simp⟩

theorem redirect_output_std (sys : Sys) (w : World) (f : String)
    (h1 : sys.fopen_ok f "w" = true) (h2 : sys.freopen_ok f "w" = true)
    (hout : w.stdout = .desc STDOUT_FILENO) (h0 : w.fd0 ≠ .closed) (hfd1 : w.fd1 ≠ .closed) :
    (redirect_output sys w (some f)).2.fd1 = .file f ∧
    (redirect_output sys w (some f)).2.fd0 = w.fd0 ∧
    (redirect_output sys w (some f)).2.stdout = .desc STDOUT_FILENO ∧
    (redirect_output sys w (some f)).2.stdin = w.stdin := by
  simp [redirect_output, h1, h2, open_lowest, h0, hfd1, World.log, freopen, hout, set_fd,
    STDOUT_FILENO, STDIN_FILENO]

theorem redirect_input_std (sys : Sys) (w : World) (f : String)
    (h1 : sys.fopen_ok f "r" = true) (h2 : sys.freopen_ok f "r" = true)
    (hin : w.stdin = .desc STDIN_FILENO) (h0 : w.fd0 ≠ .closed) (hfd1 : w.fd1 ≠ .closed) :
    (redirect_input sys w (some f)).2.fd0 = .file f ∧
    (redirect_input sys w (some f)).2.fd1 = w.fd1 ∧
    (redirect_input sys w (some f)).2.stdin = .desc STDIN_FILENO ∧
    (redirect_input sys w (some f)).2.stdout = w.stdout := by
  simp [redirect_input, h1, h2, open_lowest, h0, hfd1, World.log, freopen, hin, set_fd,
    STDOUT_FILENO, STDIN_FILENO]

theorem reset_stdio_twice_std (sys : Sys) (w : World)
    (hin : w.stdin = .desc STDIN_FILENO) (hout : w.stdout = .desc STDOUT_FILENO) :
    (reset_stdio sys (reset_stdio sys w)).fd1 =
      (if sys.freopen_ok "/dev/tty" "w" then .file "/dev/tty" else .closed) ∧
    (reset_stdio sys (reset_stdio sys w)).fd0 =
      (if sys.freopen_ok "/dev/tty" "r" then .file "/dev/tty" else .closed) := by
  cases hw : sys.freopen_ok "/dev/tty" "w" <;> cases hr : sys.freopen_ok "/dev/tty" "r" <;>
    simp [reset_stdio, freopen, hw, hr, hin, hout, set_fd, fclose, World.log, STDIN_FILENO,
      STDOUT_FILENO]

theorem parent_branch_std (sys : Sys) (w : World) (pid : Nat) (ready : Bool) (status : Nat)
    (hin : w.stdin = .desc STDIN_FILENO) (hout : w.stdout = .desc STDOUT_FILENO) :
    (parent_branch sys w pid ready status).2.fd1 =
      (if sys.freopen_ok "/dev/tty" "w" then .file "/dev/tty" else .closed) ∧
    (parent_branch sys w pid ready status).2.fd0 =
      (if sys.freopen_ok "/dev/tty" "r" then .file "/dev/tty" else .closed) := by
  unfold parent_branch
  simp only
  apply reset_stdio_twice_std
  · cases ready <;> simp [tcsetpgrp_frame, World.log, hin]
  · cases ready <;> simp [tcsetpgrp_frame, World.log, hout]

/-- C6, as stated, fails: for `echo hi > out.txt` the shell, whose `stdout` is the inherited
descriptor 1, reopens its own `stdout` on `out.txt` before it calls `fork`, and after the child
has finished descriptors 1 and 0 of the shell are both reopened on `/dev/tty`. -/
theorem shell_streams_rebound :
    world_interactive.stdout = .desc STDOUT_FILENO ∧ world_interactive.fd1 = .inherited ∧
    world_interactive.stdin = .desc STDIN_FILENO ∧ world_interactive.fd0 = .inherited ∧
    (new_events world_interactive
      (cmd_run_prog sys_tty (.parent 9 true 0) world_interactive
        ["echo", "hi", ">", "out.txt"]).2).take 3 =
      [.fopen "out.txt" "w", .freopen "out.txt" "w" STDOUT_FILENO, .fork] ∧
    (cmd_run_prog sys_tty (.child 9) world_interactive
      ["echo", "hi", ">", "out.txt"]).2.fd1 = .file "out.txt" ∧
    (cmd_run_prog sys_tty (.parent 9 true 0) world_interactive
      ["echo", "hi", ">", "out.txt"]).2.stdout = .desc STDOUT_FILENO ∧
    (cmd_run_prog sys_tty (.parent 9 true 0) world_interactive
      ["echo", "hi", ">", "out.txt"]).2.fd1 = .file "/dev/tty" ∧
    (cmd_run_prog sys_tty (.parent 9 true 0) world_interactive
      ["echo", "hi", ">", "out.txt"]).2.fd0 = .file "/dev/tty" := by
  decide

/-- C6, amended: in a shell whose descriptors 0 and 1 are open with `stdin` and `stdout`
attached to them, for a command that resolves and has a trailing `> file` (respectively
`< file`) clause whose file opens, `cmd_run_prog` reopens the shell's own `stdout`
(respectively `stdin`) on the file before it calls `fork`; the child inherits that descriptor,
its other standard descriptor being the one of the shell; when the shell has waited for the
child, its descriptors 1 and 0 are both reopened on `/dev/tty` (closed when that fails). -/
theorem cmd_run_prog_redirection_streams (sys : Sys) (w : World) (tokens : Tokens)
    (p f : String) (hres : get_full_path sys tokens[0]? = some p)
    (h3 : 3 ≤ tokens.length)
    (hf : tokens[tokens.length - 1]? = some f)
    (hopen : redirect_open_fails sys tokens = false)
    (hin : w.stdin = .desc STDIN_FILENO) (hout : w.stdout = .desc STDOUT_FILENO)
    (h0 : w.fd0 ≠ .closed) (h1 : w.fd1 ≠ .closed) :
    (tokens[tokens.length - 2]? = some ">" →
      (∀ self, (cmd_run_prog sys (.child self) w tokens).2.fd1 = .file f ∧
        (cmd_run_prog sys (.child self) w tokens).2.fd0 = w.fd0) ∧
      (∀ fk, ∃ tail, new_events w (cmd_run_prog sys fk w tokens).2 =
        [.fopen f "w", .freopen f "w" STDOUT_FILENO, .fork] ++ tail)) ∧
    (tokens[tokens.length - 2]? = some "<" →
      (∀ self, (cmd_run_prog sys (.child self) w tokens).2.fd0 = .file f ∧
        (cmd_run_prog sys (.child self) w tokens).2.fd1 = w.fd1) ∧
      (∀ fk, ∃ tail, new_events w (cmd_run_prog sys fk w tokens).2 =
        [.fopen f "r", .freopen f "r" STDIN_FILENO, .fork] ++ tail)) ∧
    ((tokens[tokens.length - 2]? = some ">" ∨ tokens[tokens.length - 2]? = some "<") →
      ∀ pid ready status,
        (cmd_run_prog sys (.parent pid ready status) w tokens).2.fd1 =
          (if sys.freopen_ok "/dev/tty" "w" then .file "/dev/tty" else .closed) ∧
        (cmd_run_prog sys (.parent pid ready status) w tokens).2.fd0 =
          (if sys.freopen_ok "/dev/tty" "r" then .file "/dev/tty" else .closed)) := by
  have hrun := fun fk => cmd_run_prog_success sys fk w tokens p hres hopen
  have hchild : ∀ self (w1 : World) (r : Nat),
      (fork_and_run sys (.child self) w1 tokens p r).2.fd1 = w1.fd1 ∧
      (fork_and_run sys (.child self) w1 tokens p r).2.fd0 = w1.fd0 := by
    intro self w1 r
    unfold fork_and_run child_branch
    simp only
    split <;> simp [World.log]
  have hne : ¬ ("<" : String) = ">" := by decide
  have hgt_facts : tokens[tokens.length - 2]? = some ">" →
      redirected sys w tokens = (redirect_output sys w (some f)).2 ∧
      sys.fopen_ok f "w" = true ∧ sys.freopen_ok f "w" = true := by
    intro hgt
    refine ⟨by simp [redirected, h3, hgt, hf], ?_⟩
    simpa [redirect_open_fails, h3, hgt, hf] using hopen
  have hlt_facts : tokens[tokens.length - 2]? = some "<" →
      redirected sys w tokens = (redirect_input sys w (some f)).2 ∧
      sys.fopen_ok f "r" = true ∧ sys.freopen_ok f "r" = true := by
    intro hlt
    refine ⟨by simp [redirected, h3, hlt, hf, hne], ?_⟩
    simpa [redirect_open_fails, h3, hlt, hf, hne] using hopen
  refine ⟨?_, ?_, ?_⟩
  · intro hgt
    obtain ⟨hre, ho1, ho2⟩ := hgt_facts hgt
    obtain ⟨s1, s2, _, _⟩ := redirect_output_std sys w f ho1 ho2 hout h0 h1
    refine ⟨?_, ?_⟩
    · intro self
      rw [hrun, (hchild self _ _).1, (hchild self _ _).2, hre]
      exact ⟨s1, s2⟩
    · intro fk
      rw [hrun]
      obtain ⟨tail, ht⟩ := new_events_fork_and_run sys fk w (redirected sys w tokens) tokens p
        (if redirect_detected tokens then 1 else 0)
        [.fopen f "w", .freopen f "w" STDOUT_FILENO]
        (by rw [hre]; exact (redirect_output_ok sys w f ho1 ho2).2)
      exact ⟨tail, by rw [ht]; simp⟩
  · intro hlt
    obtain ⟨hre, ho1, ho2⟩ := hlt_facts hlt
    obtain ⟨s1, s2, _, _⟩ := redirect_input_std sys w f ho1 ho2 hin h0 h1
    refine ⟨?_, ?_⟩
    · intro self
      rw [hrun, (hchild self _ _).1, (hchild self _ _).2, hre]
      exact ⟨s1, s2⟩
    · intro fk
      rw [hrun]
      obtain ⟨tail, ht⟩ := new_events_fork_and_run sys fk w (redirected sys w tokens) tokens p
        (if redirect_detected tokens then 1 else 0)
        [.fopen f "r", .freopen f "r" STDIN_FILENO]
        (by rw [hre]; exact (redirect_input_ok sys w f ho1 ho2).2)
      exact ⟨tail, by rw [ht]; simp⟩
  · intro hor pid ready status
    rw [hrun]
    simp only [fork_and_run]
    have hstreams : (redirected sys w tokens).stdin = .desc STDIN_FILENO ∧
        (redirected sys w tokens).stdout = .desc STDOUT_FILENO := by
      rcases hor with hgt | hlt
      · obtain ⟨hre, ho1, ho2⟩ := hgt_facts hgt
        obtain ⟨_, _, s3, s4⟩ := redirect_output_std sys w f ho1 ho2 hout h0 h1
        rw [hre]
        exact ⟨s4.trans hin, s3⟩
      · obtain ⟨hre, ho1, ho2⟩ := hlt_facts hlt
        obtain ⟨_, _, s3, s4⟩ := redirect_input_std sys w f ho1 ho2 hin h0 h1
        rw [hre]
        exact ⟨s3, s4.trans hout⟩
    exact parent_branch_std sys ((redirected sys w tokens).log .fork) pid ready status
      (by simpa [World.log] using hstreams.1) (by simpa [World.log] using hstreams.2)

/-- Witness of C6 (amended): `echo hi > out.txt` in the interactive demo session. -/
theorem cmd_run_prog_redirection_streams_witness :
    get_full_path sys_tty (["echo", "hi", ">", "out.txt"] : Tokens)[0]? = some "/bin/echo" ∧
    redirect_open_fails sys_tty ["echo", "hi", ">", "out.txt"] = false ∧
    world_interactive.stdin = .desc STDIN_FILENO ∧
    world_interactive.stdout = .desc STDOUT_FILENO ∧
    world_interactive.fd0 ≠ .closed ∧ world_interactive.fd1 ≠ .closed ∧
    (cmd_run_prog sys_tty (.child 9) world_interactive
      ["echo", "hi", ">", "out.txt"]).2.fd1 = .file "out.txt" ∧
    (cmd_run_prog sys_tty (.child 9) world_interactive
      ["echo", "hi", ">", "out.txt"]).2.fd0 = world_interactive.fd0 :=
  have h := cmd_run_prog_redirection_streams sys_tty world_interactive
    ["echo", "hi", ">", "out.txt"] "/bin/echo" "out.txt" (by decide) (by decide) (by decide)
    (by decide) (by decide) (by decide) (by decide) (by decide)
  ⟨by decide, by decide, by decide, by decide, by decide, by decide,
   ((h.1 (by decide)).1 9).1, ((h.1 (by decide)).1 9).2⟩

end HwShell
